import Mathlib

/-!
Verification development for the `whatidid` CLI (TypeScript).

The file shallowly embeds the program's two algorithmic cores — the
repository/PR discovery engine (`src/github/client.ts`) and the feature
clustering engine (`src/domain/grouping.ts`) — together with the response
cache (`src/cache.ts`) and the rate-limit/retry policy of the GitHub client.

Modelling conventions:
* JavaScript strings are Lean `String`s (lists of `Char`); `toLowerCase`
  is `Char.toLower` mapped over the characters.
* Timestamp strings (`mergedAt`, `startDate`, …) are represented by the
  epoch-millisecond value `new Date(s).getTime()` the code compares them
  by, as an `Int`.
* JavaScript numbers used for similarity scores (0.6/0.4 weights, the 0.5
  threshold) are modelled as exact rationals.
* Network effects are made explicit: functions that fetch are modelled on
  the lists/responses they would have fetched.
-/

namespace Whatidid

/-! ### Domain model (src/domain/models.ts) -/

/-- Type of feature/change delivered (`FeatureType` in models.ts). -/
inductive FeatureType
  | feature
  | enhancement
  | bugfix
  | infra
  | refactor
deriving DecidableEq, Repr

/-- Confidence level of the feature extraction (`ConfidenceLevel`). -/
inductive ConfidenceLevel
  | high
  | medium
  | low
deriving DecidableEq, Repr

/-- An extracted feature (`Feature` in models.ts); the two date strings are
represented by their parsed epoch-millisecond values. -/
structure Feature where
  project : String
  title : String
  description : String
  type : FeatureType
  prs : List ℕ
  startDate : ℤ
  endDate : ℤ
  confidence : ConfidenceLevel
deriving DecidableEq, Repr

/-- A commit attached to a pull request (`Commit` in models.ts). -/
structure Commit where
  sha : String
  message : String
  author : String
  date : ℤ
deriving DecidableEq, Repr

/-- A merged pull request (`PullRequest` in models.ts); `createdAt` and
`mergedAt` are the parsed epoch-millisecond values. -/
structure PullRequest where
  number : ℕ
  title : String
  body : Option String
  url : String
  repoName : String
  repoFullName : String
  baseBranch : String
  createdAt : ℤ
  mergedAt : ℤ
  commits : List Commit
deriving DecidableEq, Repr

/-! ### String helpers shared by several embedded functions -/

/-- JavaScript `s.toLowerCase()`, modelled characterwise. -/
def jsLower (s : String) : String := ⟨s.data.map Char.toLower⟩

/-- Membership in JavaScript's regex class `\w` (`[A-Za-z0-9_]`). -/
def jsWordChar (c : Char) : Bool := c.isAlphanum || c = '_'

/-- JavaScript `String.prototype.startsWith`, as a list-of-characters
prefix test. -/
def strStartsWith (pre s : String) : Bool := pre.data.isPrefixOf s.data

/-- JavaScript `repoFullName.split('/')[0]`: the part of the string before
the first `/` (the whole string when there is no `/`). -/
def repoOwner (repoFullName : String) : String :=
  ⟨repoFullName.data.takeWhile (fun c => c ≠ '/')⟩

/-! ### Feature clustering engine (src/domain/grouping.ts) -/

/-- The token normalization inside `calculateSimilarity` (grouping.ts
lines 13-18): lower-case, replace every character that is neither a word
character (`\w`) nor whitespace (`\s`) by a space, split on whitespace and
keep only words longer than 2 characters.  Splitting here is per
whitespace character where the source splits on whitespace runs: the empty
chunks this produces are removed by the length filter either way. -/
def normalizeTokens (s : String) : List (List Char) :=
  (((jsLower s).data.map fun c => if jsWordChar c || c.isWhitespace then c else ' ').splitOnP
      fun c => c.isWhitespace).filter fun w => 2 < w.length

/-- The set of normalized title tokens (`new Set(normalize(str))`). -/
def tokensOf (s : String) : Finset (List Char) := (normalizeTokens s).toFinset

/-- Token-based Jaccard similarity (`calculateSimilarity`, grouping.ts
lines 12-32): 0 when either token set is empty, otherwise intersection
size over union size. -/
def calculateSimilarity (str1 str2 : String) : ℚ :=
  let tokens1 := tokensOf str1
  let tokens2 := tokensOf str2
  if tokens1.card = 0 ∨ tokens2.card = 0 then 0
  else ((tokens1 ∩ tokens2).card : ℚ) / ((tokens1 ∪ tokens2).card : ℚ)

/-- Levenshtein distance (`levenshteinDistance`, grouping.ts lines 37-67).
The source fills the Wagner-Fischer matrix `dp[i][j]` bottom-up; this is
the recurrence that matrix memoizes (deletion, insertion, substitution
with cost 0 on equal characters). -/
def levenshteinDistance : List Char → List Char → ℕ
  | [], t => t.length
  | a :: s, [] => (a :: s).length
  | a :: s, b :: t =>
      min (min (levenshteinDistance s (b :: t) + 1) (levenshteinDistance (a :: s) t + 1))
          (levenshteinDistance s t + if a = b then 0 else 1)

/-- Normalized Levenshtein similarity (`levenshteinSimilarity`, grouping.ts
lines 72-82): 1 when both strings are empty, otherwise
`1 - distance(lowercased) / max(len1, len2)`. -/
def levenshteinSimilarity (str1 str2 : String) : ℚ :=
  let maxLen := max str1.length str2.length
  if maxLen = 0 then 1
  else 1 - (levenshteinDistance (jsLower str1).data (jsLower str2).data : ℚ) / (maxLen : ℚ)

/-- Combined similarity score (`featureSimilarity`, grouping.ts lines
87-104): 0 across projects or across types, otherwise the 0.6/0.4 blend of
the two title measures. -/
def featureSimilarity (f1 f2 : Feature) : ℚ :=
  if f1.project ≠ f2.project then 0
  else if f1.type ≠ f2.type then 0
  else calculateSimilarity f1.title f2.title * (3 / 5)
        + levenshteinSimilarity f1.title f2.title * (2 / 5)

/-- Merge two features (`mergeFeatures`, grouping.ts lines 109-138).  The
source deduplicates `prs` with a JS `Set` and then sorts numerically
ascending; after the numeric sort, which occurrence of a duplicate the set
kept is irrelevant, so `List.dedup` followed by a sort gives the same
list. -/
def mergeFeatures (f1 f2 : Feature) : Feature :=
  let base := if f1.confidence = ConfidenceLevel.high ∨ f2.confidence = ConfidenceLevel.low
              then f1 else f2
  let allPRs := List.insertionSort (· ≤ ·) ((f1.prs ++ f2.prs).dedup)
  let startDate := if f1.startDate < f2.startDate then f1.startDate else f2.startDate
  let endDate := if f1.endDate > f2.endDate then f1.endDate else f2.endDate
  let confidence := if f1.confidence ≠ f2.confidence then ConfidenceLevel.medium
                    else base.confidence
  { project := base.project
    title := base.title
    description := base.description
    type := base.type
    prs := allPRs
    startDate := startDate
    endDate := endDate
    confidence := confidence }

/-- The inner scan of `mergeSimilarFeatures` (grouping.ts lines 179-191):
walk the remaining pool once; a candidate at least as similar as the
threshold is merged into the (possibly already merged) pivot and removed,
any other candidate is kept for the next round. -/
def absorb (threshold : ℚ) : Feature → List Feature → Feature × List Feature
  | current, [] => (current, [])
  | current, candidate :: rest =>
    if featureSimilarity current candidate ≥ threshold then
      absorb threshold (mergeFeatures current candidate) rest
    else
      let p := absorb threshold current rest
      (p.1, candidate :: p.2)

/-- The outer while-loop of `mergeSimilarFeatures` (grouping.ts lines
174-194): repeatedly shift the first remaining feature, absorb everything
similar to it, and emit the merged pivot. -/
def mergeLoop (threshold : ℚ) : List Feature → List Feature
  | [] => []
  | f :: rest =>
      (absorb threshold f rest).1 :: mergeLoop threshold (absorb threshold f rest).2
termination_by l => l.length
decreasing_by
  have h : ∀ (c : Feature) (l : List Feature), (absorb threshold c l).2.length ≤ l.length := by
    intro c l
    induction l generalizing c with
    | nil => simp [absorb]
    | cons x xs ih =>
        simp only [absorb]
        split
        · exact (ih _).trans (Nat.le_succ _)
        · simpa using ih c
  have := h f rest
  simp only [List.length_cons]
  omega

/-- Merge similar features within a group (`mergeSimilarFeatures`,
grouping.ts lines 162-197); the source's default threshold is 0.5. -/
def mergeSimilarFeatures (similarityThreshold : ℚ) (features : List Feature) : List Feature :=
  if features.length ≤ 1 then features
  else mergeLoop similarityThreshold features

/-! ### Discovery engine: filters (src/unnamed/part_000) -/

/-- Allowed-base-branch predicate (`isAllowedBaseBranch`, part_000 lines
914-922 and client.ts lines 55-63): `main`, `master`, or a `release/`
branch. -/
def isAllowedBaseBranch (branch : String) : Bool :=
  if branch = "main" ∨ branch = "master" then true
  else if strStartsWith "release/" branch then true
  else false

/-- Milliseconds in a day. -/
def MS_PER_DAY : ℤ := 86400000

/-- The effect of `untilDate.setHours(23, 59, 59, 999)` (part_000 line
931) on a parsed timestamp: move it to the last millisecond of its day.
The source uses the process-local timezone; the model takes days aligned
to the epoch. -/
def endOfDay (t : ℤ) : ℤ := t - t % MS_PER_DAY + (MS_PER_DAY - 1)

/-- Date-range predicate (`isDateInRange`, part_000 lines 927-933), on the
parsed epoch-millisecond values of the three date strings (the source's
`until` is `untilD` here, `until` being a Lean keyword). -/
def isDateInRange (date since untilD : ℤ) : Bool :=
  decide (since ≤ date) && decide (date ≤ endOfDay untilD)

/-- Scope of repositories to search (`RepoScope`, part_000 line 945). -/
inductive RepoScope
  | all
  | personal
  | orgs
deriving DecidableEq, Repr

/-- The filter-relevant options of `GitHubClientOptions` (part_000 lines
950-960); optional fields stay optional. -/
structure GitHubClientOptions where
  scope : Option RepoScope
  repos : Option (List String)
  orgs : Option (List String)
  excludeRepos : Option (List String)
deriving Repr

/-- Organization-repo test (`isOrgRepo`, part_000 lines 1239-1242): the
owner segment differs case-insensitively from the username. -/
def isOrgRepo (repoFullName username : String) : Bool :=
  jsLower (repoOwner repoFullName) ≠ jsLower username

/-- Repo-inclusion predicate (`shouldIncludeRepo`, part_000 lines
1247-1273), transliterating the early returns: exclude-list, then scope,
then the repo allow-list, then the org allow-list, defaulting to
inclusion.  JavaScript's `repoOrg ? orgs.includes(repoOrg) : false`
treats an empty owner segment as falsy. -/
def shouldIncludeRepo (opts : GitHubClientOptions) (repoFullName username : String) : Bool :=
  if (opts.excludeRepos.getD []).contains repoFullName then false
  else if opts.scope = some RepoScope.personal ∧ isOrgRepo repoFullName username = true then false
  else if opts.scope = some RepoScope.orgs ∧ isOrgRepo repoFullName username = false then false
  else if 0 < (opts.repos.getD []).length then (opts.repos.getD []).contains repoFullName
  else if 0 < (opts.orgs.getD []).length then
    if repoOwner repoFullName ≠ "" then (opts.orgs.getD []).contains (repoOwner repoFullName)
    else false
  else true

/-- The per-repo gate of `fetchPRsFromSpecificRepos` (part_000 lines
1427-1428): when an explicit repo list drives discovery, only the
exclude-list is consulted — the scope filter is not. -/
def specificRepoIncluded (opts : GitHubClientOptions) (repoFullName : String) : Bool :=
  !(opts.excludeRepos.getD []).contains repoFullName

/-! ### Discovery engine: merge/dedup step (part_000 lines 1445-1489) -/

/-- The dedup key: the source keys its `Map` by the string
`repoFullName#number`; since a PR number contains no `#`, that string is
in bijection with the pair, which the model uses directly. -/
def prKey (p : PullRequest) : String × ℕ := (p.repoFullName, p.number)

/-- The `uniquePRs` map-insertion loop of `fetchAllMergedPRs` (part_000
lines 1473-1479): keep a PR when its key has not been seen yet, so the
first occurrence of each key wins. -/
def dedupFirstAux : List PullRequest → List (String × ℕ) → List PullRequest
  | [], _ => []
  | p :: rest, seen =>
    if prKey p ∈ seen then dedupFirstAux rest seen
    else p :: dedupFirstAux rest (prKey p :: seen)

/-- Deduplicate a concatenated strategy output by `(repoFullName, number)`,
first occurrence winning. -/
def dedupPRs (allPRs : List PullRequest) : List PullRequest := dedupFirstAux allPRs []

/-- The sort key of the final `result.sort` (part_000 line 1486):
ascending parsed merge timestamp. -/
def byMergedAt : PullRequest → PullRequest → Prop := fun a b => a.mergedAt ≤ b.mergedAt

instance : DecidableRel byMergedAt :=
  fun a b => inferInstanceAs (Decidable (a.mergedAt ≤ b.mergedAt))

instance : IsTotal PullRequest byMergedAt := ⟨fun a b => le_total a.mergedAt b.mergedAt⟩

instance : IsTrans PullRequest byMergedAt := ⟨fun _ _ _ h1 h2 => le_trans h1 h2⟩

/-- The merge/dedup/sort tail of `fetchAllMergedPRs` (part_000 lines
1473-1488), as a function of the concatenated strategy outputs `allPRs`:
deduplicate by key keeping first occurrences, then sort ascending by
merge timestamp (a stable sort, as JavaScript's `Array.prototype.sort`). -/
def fetchAllMergedPRs (allPRs : List PullRequest) : List PullRequest :=
  List.insertionSort byMergedAt (dedupPRs allPRs)

/-! ### Rate-limit/retry policy (part_000 lines 1003-1067) -/

/-- The throttle-relevant data of one HTTP response: the status code and
the two rate-limit headers (`X-RateLimit-Remaining` as the raw string the
code compares with `'0'`, `X-RateLimit-Reset` as the parsed epoch-second
integer). -/
structure HttpResp where
  status : ℕ
  remaining : Option String
  reset : Option ℤ
deriving DecidableEq, Repr

/-- Terminal outcomes of `GitHubClient.request`: a successful response, a
thrown `GitHubClientError` for a non-ok response, the thrown terminal
rate-limit `GitHubClientError`, or exhaustion of the modelled response
list mid-retry. -/
inductive ReqOutcome
  | success (r : HttpResp)
  | httpError (status : ℕ)
  | rateLimitError (status : ℕ)
  | outOfResponses
deriving DecidableEq, Repr

/-- The backoff computation of `request` (part_000 lines 1035-1040):
60000 ms without a reset header, otherwise
`min(max(reset*1000 - now + 1000, 1000), 300000)`. -/
def waitTimeMs (reset : Option ℤ) (now : ℤ) : ℤ :=
  match reset with
  | none => 60000
  | some t => min (max (t * 1000 - now + 1000) 1000) 300000

/-- Simulation of `GitHubClient.request` (part_000 lines 1003-1067) on a
list of (response, observation time) pairs, one per attempt: a 403 with
zero remaining quota or any 429 either raises the terminal rate-limit
error (once `retryCount` reaches 3) or records the computed wait and
retries; any other non-2xx response raises an HTTP error; a 2xx response
succeeds.  The first component collects the waits slept before retries. -/
def requestSim : List (HttpResp × ℤ) → ℕ → List ℤ × ReqOutcome
  | [], _ => ([], ReqOutcome.outOfResponses)
  | (r, now) :: rest, retryCount =>
    if (r.status = 403 ∨ r.status = 429) ∧ (r.remaining = some "0" ∨ r.status = 429) then
      if 3 ≤ retryCount then ([], ReqOutcome.rateLimitError r.status)
      else
        let p := requestSim rest (retryCount + 1)
        (waitTimeMs r.reset now :: p.1, p.2)
    else if 200 ≤ r.status ∧ r.status < 300 then ([], ReqOutcome.success r)
    else ([], ReqOutcome.httpError r.status)

/-! ### Response cache (src/cache.ts) -/

/-- Cache schema version (`CACHE_VERSION`, cache.ts line 19). -/
def CACHE_VERSION : ℕ := 1

/-- Cache time-to-live (`CACHE_TTL_MS`, cache.ts line 11): 24 hours. -/
def CACHE_TTL_MS : ℤ := 24 * 60 * 60 * 1000

/-- A stored cache entry (`CacheEntry`, cache.ts lines 13-17). -/
structure CacheEntry (α : Type) where
  data : α
  timestamp : ℤ
  version : ℕ
deriving DecidableEq, Repr

/-- The decision logic of `Cache.get` (cache.ts lines 73-101): `entry` is
the stored entry for the requested key, or `none` when the file is
missing or unreadable; a disabled cache, a version mismatch, or an entry
older than the TTL all yield `none`. -/
def cacheGet {α : Type} (enabled : Bool) (entry : Option (CacheEntry α)) (now : ℤ) : Option α :=
  if !enabled then none
  else
    match entry with
    | none => none
    | some e =>
      if e.version ≠ CACHE_VERSION then none
      else if now - e.timestamp > CACHE_TTL_MS then none
      else some e.data

/-- The entry `Cache.set` writes (cache.ts lines 112-116). -/
def cacheSetEntry {α : Type} (data : α) (now : ℤ) : CacheEntry α :=
  { data := data, timestamp := now, version := CACHE_VERSION }

/-! ### Spec-side definitions for the refinement comparison (claim C2) -/

/-- Follows the spec's words: token Jaccard similarity, "set intersection
over union" of the normalized title tokens (division by zero, when both
token sets are empty, is 0 in ℚ). -/
def specTokenJaccard (str1 str2 : String) : ℚ :=
  ((tokensOf str1 ∩ tokensOf str2).card : ℚ) / ((tokensOf str1 ∪ tokensOf str2).card : ℚ)

/-- Follows the spec's words: normalized edit-distance similarity,
"1 - editDistance / max(len1, len2)" on the lower-cased titles. -/
def specEditDistanceSim (str1 str2 : String) : ℚ :=
  1 - (levenshteinDistance (jsLower str1).data (jsLower str2).data : ℚ)
        / ((max str1.length str2.length : ℕ) : ℚ)

/-! ## Theorems for the claims -/

/-! ### C1: which input supplies the scalar fields of a merge -/

/-- First of a concrete medium-confidence pair used for claim C1. -/
def mmF1 : Feature :=
  { project := "octo/app", title := "Add search", description := "first",
    type := FeatureType.feature, prs := [1], startDate := 0, endDate := 10,
    confidence := ConfidenceLevel.medium }

/-- Second of a concrete medium-confidence pair used for claim C1. -/
def mmF2 : Feature :=
  { project := "octo/app", title := "Improve search", description := "second",
    type := FeatureType.feature, prs := [2], startDate := 5, endDate := 20,
    confidence := ConfidenceLevel.medium }

/-- C1 (counterexample): the claim says that when both inputs share the
same confidence level — "including both 'medium'" — the scalar fields come
from the first argument `f1`; but `mergeFeatures` on two medium-confidence
features takes its title (and the other scalar fields) from the second
argument. -/
theorem mergeFeatures_medium_tie_counterexample :
    mmF1.confidence = mmF2.confidence ∧
    (mergeFeatures mmF1 mmF2).title = mmF2.title ∧
    (mergeFeatures mmF1 mmF2).title ≠ mmF1.title := by
  refine ⟨rfl, by decide, by decide⟩

/-- C1 (amended): `mergeFeatures` takes title, description and type from
`f1` exactly when `f1` has confidence `high` or `f2` has confidence `low`,
and from `f2` in every other case; so a shared-`high` or shared-`low` tie
yields `f1`'s fields while a shared-`medium` tie yields `f2`'s. -/
theorem mergeFeatures_scalar_fields (f1 f2 : Feature) :
    ((f1.confidence = ConfidenceLevel.high ∨ f2.confidence = ConfidenceLevel.low) →
      (mergeFeatures f1 f2).title = f1.title ∧
      (mergeFeatures f1 f2).description = f1.description ∧
      (mergeFeatures f1 f2).type = f1.type) ∧
    ((f1.confidence ≠ ConfidenceLevel.high ∧ f2.confidence ≠ ConfidenceLevel.low) →
      (mergeFeatures f1 f2).title = f2.title ∧
      (mergeFeatures f1 f2).description = f2.description ∧
      (mergeFeatures f1 f2).type = f2.type) ∧
    ((f1.confidence = ConfidenceLevel.medium ∧ f2.confidence = ConfidenceLevel.medium) →
      (mergeFeatures f1 f2).title = f2.title ∧
      (mergeFeatures f1 f2).description = f2.description ∧
      (mergeFeatures f1 f2).type = f2.type) := by
  refine ⟨?_, ?_, ?_⟩
  · intro h
    have hb : (if f1.confidence = ConfidenceLevel.high ∨ f2.confidence = ConfidenceLevel.low
               then f1 else f2) = f1 := if_pos h
    simp [mergeFeatures, hb]
  · rintro ⟨h1, h2⟩
    have hb : (if f1.confidence = ConfidenceLevel.high ∨ f2.confidence = ConfidenceLevel.low
               then f1 else f2) = f2 := if_neg (by tauto)
    simp [mergeFeatures, hb]
  · rintro ⟨h1, h2⟩
    have hb : (if f1.confidence = ConfidenceLevel.high ∨ f2.confidence = ConfidenceLevel.low
               then f1 else f2) = f2 := if_neg (by simp [h1, h2])
    simp [mergeFeatures, hb]

/-- C1 (witness): the amended tie-break at the concrete medium/medium
pair. -/
theorem mergeFeatures_scalar_fields_witness :
    (mergeFeatures mmF1 mmF2).title = mmF2.title ∧
    (mergeFeatures mmF1 mmF2).description = mmF2.description ∧
    (mergeFeatures mmF1 mmF2).type = mmF2.type :=
  (mergeFeatures_scalar_fields mmF1 mmF2).2.2 ⟨rfl, rfl⟩

/-! ### C7: non-scalar fields of a merge -/

/-- C7: `mergeFeatures` yields a `prs` list that is strictly sorted (a
deduplicated ascending set) whose members are exactly the union of the two
inputs' PR numbers; `startDate` and `endDate` widen to the min/max of the
inputs; `confidence` is the shared value on agreement and `medium` on
disagreement. -/
theorem mergeFeatures_prs_dates_confidence (f1 f2 : Feature) :
    (mergeFeatures f1 f2).prs.Sorted (· < ·) ∧
    (∀ n, n ∈ (mergeFeatures f1 f2).prs ↔ n ∈ f1.prs ∨ n ∈ f2.prs) ∧
    (mergeFeatures f1 f2).startDate = min f1.startDate f2.startDate ∧
    (mergeFeatures f1 f2).endDate = max f1.endDate f2.endDate ∧
    (mergeFeatures f1 f2).confidence =
      (if f1.confidence = f2.confidence then f1.confidence else ConfidenceLevel.medium) := by
  have hprs : (mergeFeatures f1 f2).prs
      = List.insertionSort (· ≤ ·) ((f1.prs ++ f2.prs).dedup) := rfl
  have hperm : (List.insertionSort (· ≤ ·) ((f1.prs ++ f2.prs).dedup)).Perm
      ((f1.prs ++ f2.prs).dedup) := List.perm_insertionSort _ _
  refine ⟨?_, ?_, ?_, ?_, ?_⟩
  · rw [hprs]
    exact (List.sorted_insertionSort _ _).lt_of_le
      (hperm.nodup_iff.mpr (List.nodup_dedup _))
  · intro n
    rw [hprs, hperm.mem_iff, List.mem_dedup, List.mem_append]
  · have h : (mergeFeatures f1 f2).startDate
        = if f1.startDate < f2.startDate then f1.startDate else f2.startDate := rfl
    rw [h, min_def]
    split_ifs <;> omega
  · have h : (mergeFeatures f1 f2).endDate
        = if f1.endDate > f2.endDate then f1.endDate else f2.endDate := rfl
    rw [h, max_def]
    split_ifs <;> omega
  · cases h1 : f1.confidence <;> cases h2 : f2.confidence <;>
      simp [mergeFeatures, h1, h2]

/-- C7 (witness): the merge invariants at a concrete pair with overlapping,
unsorted PR lists. -/
theorem mergeFeatures_prs_dates_confidence_witness :
    (mergeFeatures mmF1 mmF2).prs.Sorted (· < ·) ∧
    (mergeFeatures mmF1 mmF2).startDate = min mmF1.startDate mmF2.startDate :=
  ⟨(mergeFeatures_prs_dates_confidence mmF1 mmF2).1,
   (mergeFeatures_prs_dates_confidence mmF1 mmF2).2.2.1⟩

/-! ### C6: cache version and TTL checks -/

/-- C6: `Cache.get` treats an entry as absent when its version differs from
the current cache version or when it is older than the 24-hour TTL; in
particular an entry written at `T` is absent when read at `T + 25h`. -/
theorem cacheGet_version_ttl {α : Type} (en : Bool) (e : CacheEntry α) (now : ℤ) :
    (e.version ≠ CACHE_VERSION → cacheGet en (some e) now = none) ∧
    (now - e.timestamp > CACHE_TTL_MS → cacheGet en (some e) now = none) ∧
    (∀ (d : α) (T : ℤ),
      cacheGet true (some (cacheSetEntry d T)) (T + 25 * 60 * 60 * 1000) = none) := by
  refine ⟨?_, ?_, ?_⟩
  · intro h
    cases en
    · rfl
    · simp [cacheGet, h]
  · intro h
    cases en
    · rfl
    · by_cases hv : e.version ≠ CACHE_VERSION
      · simp [cacheGet, hv]
      · simp [cacheGet, hv, h]
  · intro d T
    simp only [cacheGet, cacheSetEntry]
    simp only [CACHE_TTL_MS]
    norm_num

/-- C6 (witness): a version-2 entry and a 25-hour-old entry are both
treated as absent at concrete inputs. -/
theorem cacheGet_version_ttl_witness :
    cacheGet true (some (⟨7, 0, 2⟩ : CacheEntry ℕ)) 0 = none ∧
    cacheGet true (some (cacheSetEntry (7 : ℕ) 0)) (0 + 25 * 60 * 60 * 1000) = none :=
  ⟨(cacheGet_version_ttl true (⟨7, 0, 2⟩ : CacheEntry ℕ) 0).1 (by decide),
   (cacheGet_version_ttl true (⟨7, 0, 2⟩ : CacheEntry ℕ) 0).2.2 7 0⟩

/-! ### C8: date-range predicate and its day boundary -/

/-- C8: `isDateInRange` holds exactly when `since ≤ date` and `date` is at
most the last millisecond of `until`'s day; for an `until` parsed at
midnight of day `D`, a merge at 23:59:59 of day `D` is in range (given it
is not before `since`) and a merge at 00:00:00 of day `D + 1` never is. -/
theorem isDateInRange_boundary (d s u D : ℤ) :
    (isDateInRange d s u = true ↔ s ≤ d ∧ d ≤ endOfDay u) ∧
    endOfDay (D * MS_PER_DAY) = D * MS_PER_DAY + (MS_PER_DAY - 1) ∧
    (s ≤ D * MS_PER_DAY + 86399000 →
      isDateInRange (D * MS_PER_DAY + 86399000) s (D * MS_PER_DAY) = true) ∧
    isDateInRange ((D + 1) * MS_PER_DAY) s (D * MS_PER_DAY) = false := by
  have hmod : D * MS_PER_DAY % MS_PER_DAY = 0 := Int.mul_emod_left D MS_PER_DAY
  have heod : endOfDay (D * MS_PER_DAY) = D * MS_PER_DAY + (MS_PER_DAY - 1) := by
    simp [endOfDay, hmod]
  refine ⟨by simp [isDateInRange], heod, ?_, ?_⟩
  · intro h
    simp only [isDateInRange, Bool.and_eq_true, decide_eq_true_eq]
    refine ⟨h, ?_⟩
    rw [heod]
    simp only [MS_PER_DAY]
    omega
  · have hgt : ¬((D + 1) * MS_PER_DAY ≤ endOfDay (D * MS_PER_DAY)) := by
      rw [heod]
      simp only [MS_PER_DAY]
      omega
    simp [isDateInRange, hgt]

/-- C8 (witness): day 0 concretely — 23:59:59.000 is in range,
00:00:00.000 of the next day is not. -/
theorem isDateInRange_boundary_witness :
    isDateInRange 86399000 0 0 = true ∧ isDateInRange 86400000 0 0 = false := by
  constructor
  · have h := (isDateInRange_boundary 0 0 0 0).2.2.1 (by norm_num)
    simpa using h
  · have h := (isDateInRange_boundary 0 0 0 0).2.2.2
    simpa using h

/-! ### C9: allowed-base-branch predicate -/

/-- C9: `isAllowedBaseBranch` accepts exactly `main`, `master` and
branches starting with `release/`; concretely `feature/x` is rejected and
`release/9.2` accepted.  The predicate takes nothing but the branch name,
so no run configuration changes it. -/
theorem isAllowedBaseBranch_spec (b : String) :
    (isAllowedBaseBranch b = true ↔
      b = "main" ∨ b = "master" ∨ strStartsWith "release/" b = true) ∧
    isAllowedBaseBranch "feature/x" = false ∧
    isAllowedBaseBranch "release/9.2" = true := by
  refine ⟨?_, by decide, by decide⟩
  simp only [isAllowedBaseBranch]
  split_ifs with h1 h2
  · simp only [true_iff]
    tauto
  · simp only [true_iff]
    tauto
  · simp only [Bool.false_eq_true, false_iff]
    push_neg at h1 ⊢
    exact ⟨h1.1, h1.2, h2⟩

/-- C9 (witness): the characterization applied at a release branch. -/
theorem isAllowedBaseBranch_spec_witness :
    isAllowedBaseBranch "release/2024.1" = true :=
  (isAllowedBaseBranch_spec "release/2024.1").1.mpr (Or.inr (Or.inr (by decide)))

/-! ### C2: the similarity blend against the spec's formula -/

/-- The source's guarded token similarity equals the spec's bare Jaccard
quotient: with an empty token set the intersection is empty and the
quotient is 0, also when the union is empty (division by zero is 0 in
ℚ). -/
theorem calculateSimilarity_eq_specTokenJaccard (s1 s2 : String) :
    calculateSimilarity s1 s2 = specTokenJaccard s1 s2 := by
  by_cases h1 : (tokensOf s1).card = 0
  · have hs : tokensOf s1 = ∅ := Finset.card_eq_zero.mp h1
    simp [calculateSimilarity, specTokenJaccard, h1, hs]
  · by_cases h2 : (tokensOf s2).card = 0
    · have hs : tokensOf s2 = ∅ := Finset.card_eq_zero.mp h2
      simp [calculateSimilarity, specTokenJaccard, h1, h2, hs]
    · simp [calculateSimilarity, specTokenJaccard, h1, h2]

/-- The source's guarded edit-distance similarity equals the spec's
formula: when both titles are empty the distance is 0 and `0 / 0 = 0` in
ℚ, so both sides are 1. -/
theorem levenshteinSimilarity_eq_specEditDistanceSim (s1 s2 : String) :
    levenshteinSimilarity s1 s2 = specEditDistanceSim s1 s2 := by
  by_cases h : max s1.length s2.length = 0
  · have hz := Nat.max_eq_zero_iff.mp h
    have h1 : s1.data = [] := List.length_eq_zero.mp hz.1
    have h2 : s2.data = [] := List.length_eq_zero.mp hz.2
    have hl : levenshteinDistance (jsLower s1).data (jsLower s2).data = 0 := by
      simp [jsLower, h1, h2, levenshteinDistance]
    simp [levenshteinSimilarity, specEditDistanceSim, h, hl]
  · simp [levenshteinSimilarity, specEditDistanceSim, h]

/-- A pair strictly below the threshold is left unmerged by the
clustering pass on the two-element pool. -/
theorem mergeSimilarFeatures_pair_of_lt {f1 f2 : Feature} {t : ℚ}
    (h : featureSimilarity f1 f2 < t) :
    mergeSimilarFeatures t [f1, f2] = [f1, f2] := by
  have hle : ¬ t ≤ featureSimilarity f1 f2 := not_le.mpr h
  simp [mergeSimilarFeatures, mergeLoop, absorb, hle]

/-- C2: `featureSimilarity` is 0 whenever project or type differ, and on
matching project and type it equals the spec's weighted blend
`0.6 * tokenJaccard + 0.4 * editDistanceSim` of the two title measures;
in particular two features differing only in type have similarity 0 and
are not merged at the default 0.5 threshold. -/
theorem featureSimilarity_spec (f1 f2 : Feature) :
    ((f1.project ≠ f2.project ∨ f1.type ≠ f2.type) → featureSimilarity f1 f2 = 0) ∧
    (f1.project = f2.project → f1.type = f2.type →
      featureSimilarity f1 f2 =
        3 / 5 * specTokenJaccard f1.title f2.title
          + 2 / 5 * specEditDistanceSim f1.title f2.title) ∧
    (f1.type ≠ f2.type →
      featureSimilarity f1 f2 = 0 ∧ mergeSimilarFeatures (1 / 2) [f1, f2] = [f1, f2]) := by
  have hzero : (f1.project ≠ f2.project ∨ f1.type ≠ f2.type) → featureSimilarity f1 f2 = 0 := by
    intro h
    rcases h with h | h
    · simp [featureSimilarity, h]
    · by_cases hp : f1.project ≠ f2.project
      · simp [featureSimilarity, hp]
      · simp [featureSimilarity, hp, h]
  refine ⟨hzero, ?_, ?_⟩
  · intro hp ht
    unfold featureSimilarity
    rw [if_neg (by simp [hp]), if_neg (by simp [ht]),
        calculateSimilarity_eq_specTokenJaccard, levenshteinSimilarity_eq_specEditDistanceSim]
    ring
  · intro h
    have h0 := hzero (Or.inr h)
    refine ⟨h0, mergeSimilarFeatures_pair_of_lt ?_⟩
    rw [h0]
    norm_num

/-- First of a concrete pair differing only in type, for claim C2. -/
def simF1 : Feature :=
  { project := "octo/app", title := "Add dark mode toggle", description := "a",
    type := FeatureType.feature, prs := [3], startDate := 0, endDate := 1,
    confidence := ConfidenceLevel.high }

/-- Second of a concrete pair differing only in type, for claim C2. -/
def simF2 : Feature :=
  { project := "octo/app", title := "Add dark mode toggle", description := "a",
    type := FeatureType.bugfix, prs := [3], startDate := 0, endDate := 1,
    confidence := ConfidenceLevel.high }

/-- C2 (witness): the hard type gate and the blend formula at concrete
features. -/
theorem featureSimilarity_spec_witness :
    featureSimilarity simF1 simF2 = 0 ∧
    featureSimilarity simF1 simF1 =
      3 / 5 * specTokenJaccard simF1.title simF1.title
        + 2 / 5 * specEditDistanceSim simF1.title simF1.title :=
  ⟨(featureSimilarity_spec simF1 simF2).1 (Or.inr (by decide)),
   (featureSimilarity_spec simF1 simF1).2.1 rfl rfl⟩

/-! ### C10: titles with empty normalized token sets -/

/-- C10: when both titles normalize to an empty token set the Jaccard
component is 0, so the similarity is at most 0.4 — below the default 0.5
threshold — and the clustering pass leaves the pair unmerged. -/
theorem emptyTokens_no_merge (f1 f2 : Feature)
    (h1 : tokensOf f1.title = ∅) (h2 : tokensOf f2.title = ∅) :
    featureSimilarity f1 f2 ≤ 2 / 5 ∧
    mergeSimilarFeatures (1 / 2) [f1, f2] = [f1, f2] := by
  have hcalc : calculateSimilarity f1.title f2.title = 0 := by
    simp [calculateSimilarity, h1]
  have hlev : levenshteinSimilarity f1.title f2.title ≤ 1 := by
    simp only [levenshteinSimilarity]
    split_ifs with h
    · exact le_refl 1
    · have hnn : (0 : ℚ) ≤ (levenshteinDistance (jsLower f1.title).data (jsLower f2.title).data : ℚ)
          / ((max f1.title.length f2.title.length : ℕ) : ℚ) :=
        div_nonneg (Nat.cast_nonneg _) (Nat.cast_nonneg _)
      linarith
  have hsim : featureSimilarity f1 f2 ≤ 2 / 5 := by
    simp only [featureSimilarity]
    split_ifs with hp ht
    · norm_num
    · norm_num
    · rw [hcalc]
      linarith
  refine ⟨hsim, mergeSimilarFeatures_pair_of_lt (lt_of_le_of_lt hsim (by norm_num))⟩

/-- First of a concrete pair whose titles have no token longer than 2
characters, for claim C10. -/
def tinyF1 : Feature :=
  { project := "octo/app", title := "ab", description := "a",
    type := FeatureType.feature, prs := [4], startDate := 0, endDate := 1,
    confidence := ConfidenceLevel.low }

/-- Second of a concrete pair whose titles have no token longer than 2
characters, for claim C10. -/
def tinyF2 : Feature :=
  { project := "octo/app", title := "a b!", description := "b",
    type := FeatureType.feature, prs := [5], startDate := 0, endDate := 1,
    confidence := ConfidenceLevel.low }

/-- C10 (witness): two short-titled features of the same project and type
stay unmerged. -/
theorem emptyTokens_no_merge_witness :
    featureSimilarity tinyF1 tinyF2 ≤ 2 / 5 ∧
    mergeSimilarFeatures (1 / 2) [tinyF1, tinyF2] = [tinyF1, tinyF2] :=
  emptyTokens_no_merge tinyF1 tinyF2 (by decide) (by decide)

/-! ### C3: the merge/dedup/sort step of fetchAllMergedPRs -/

/-- Everything the dedup loop emits has a key outside the seen set. -/
theorem dedupFirstAux_key_not_seen :
    ∀ {l : List PullRequest} {seen : List (String × ℕ)} {p : PullRequest},
      p ∈ dedupFirstAux l seen → prKey p ∉ seen := by
  intro l
  induction l with
  | nil => intro seen p h; simp [dedupFirstAux] at h
  | cons q rest ih =>
      intro seen p h
      by_cases hq : prKey q ∈ seen
      · rw [dedupFirstAux, if_pos hq] at h
        exact ih h
      · rw [dedupFirstAux, if_neg hq] at h
        rcases List.mem_cons.mp h with rfl | h
        · exact hq
        · intro hc
          exact ih h (List.mem_cons_of_mem _ hc)

/-- The dedup loop emits pairwise distinct keys. -/
theorem dedupFirstAux_keys_nodup (l : List PullRequest) :
    ∀ seen, ((dedupFirstAux l seen).map prKey).Nodup := by
  induction l with
  | nil => intro seen; simp [dedupFirstAux]
  | cons q rest ih =>
      intro seen
      by_cases hq : prKey q ∈ seen
      · rw [dedupFirstAux, if_pos hq]
        exact ih seen
      · rw [dedupFirstAux, if_neg hq]
        simp only [List.map_cons, List.nodup_cons]
        refine ⟨?_, ih _⟩
        intro hmem
        rcases List.mem_map.mp hmem with ⟨p, hp, hkey⟩
        exact dedupFirstAux_key_not_seen hp (hkey ▸ List.mem_cons_self _ _)

/-- Membership in the dedup loop's output characterized: exactly the
elements that are the first occurrence of their key in the input, the key
not being pre-seen. -/
theorem mem_dedupFirstAux (l : List PullRequest) :
    ∀ (seen : List (String × ℕ)) (p : PullRequest),
      p ∈ dedupFirstAux l seen ↔
        prKey p ∉ seen ∧ l.find? (fun q => prKey q == prKey p) = some p := by
  induction l with
  | nil => intro seen p; simp [dedupFirstAux]
  | cons q rest ih =>
      intro seen p
      by_cases hk : prKey q = prKey p
      · have hb : (prKey q == prKey p) = true := beq_iff_eq.mpr hk
        by_cases hq : prKey q ∈ seen
        · rw [dedupFirstAux, if_pos hq, ih]
          constructor
          · rintro ⟨hnp, -⟩
            exact absurd (hk ▸ hq) hnp
          · rintro ⟨hnp, -⟩
            exact absurd (hk ▸ hq) hnp
        · rw [dedupFirstAux, if_neg hq]
          constructor
          · intro hmem
            rcases List.mem_cons.mp hmem with rfl | hmem'
            · exact ⟨hq, by simp [List.find?_cons, hb]⟩
            · have h2 := (ih _ p).mp hmem'
              exact absurd (hk ▸ List.mem_cons_self _ _) h2.1
          · rintro ⟨hnp, hfind⟩
            rw [List.find?_cons, hb] at hfind
            have : q = p := by simpa using hfind
            exact this ▸ List.mem_cons_self _ _
      · have hb : (prKey q == prKey p) = false := beq_eq_false_iff_ne.mpr hk
        have hfstep : (q :: rest).find? (fun x => prKey x == prKey p)
            = rest.find? (fun x => prKey x == prKey p) := by
          rw [List.find?_cons, hb]
        by_cases hq : prKey q ∈ seen
        · rw [dedupFirstAux, if_pos hq, ih, hfstep]
        · rw [dedupFirstAux, if_neg hq, hfstep]
          constructor
          · intro hmem
            rcases List.mem_cons.mp hmem with rfl | hmem'
            · exact absurd rfl hk
            · have h2 := (ih _ p).mp hmem'
              exact ⟨fun hc => h2.1 (List.mem_cons_of_mem _ hc), h2.2⟩
          · rintro ⟨hnp, hfind⟩
            refine List.mem_cons_of_mem _ ((ih _ p).mpr ⟨?_, hfind⟩)
            intro hc
            rcases List.mem_cons.mp hc with hc1 | hc2
            · exact hk hc1.symm
            · exact hnp hc2

/-- C3: the merge/dedup/sort step keeps at most one PR per
`(repoFullName, number)` key, its members are exactly the first
occurrence of each key in the concatenated strategy output, and the
result is sorted ascending by merge timestamp. -/
theorem fetchAllMergedPRs_dedup_sorted (l : List PullRequest) :
    ((fetchAllMergedPRs l).map prKey).Nodup ∧
    (∀ p, p ∈ fetchAllMergedPRs l ↔ l.find? (fun q => prKey q == prKey p) = some p) ∧
    (fetchAllMergedPRs l).Sorted byMergedAt := by
  have hperm : (List.insertionSort byMergedAt (dedupPRs l)).Perm (dedupPRs l) :=
    List.perm_insertionSort _ _
  refine ⟨?_, ?_, List.sorted_insertionSort _ _⟩
  · exact (hperm.map prKey).nodup_iff.mpr (dedupFirstAux_keys_nodup l [])
  · intro p
    rw [show fetchAllMergedPRs l = List.insertionSort byMergedAt (dedupPRs l) from rfl,
        hperm.mem_iff]
    simpa [dedupPRs] using mem_dedupFirstAux l [] p

/-- A concrete merged PR for claim C3. -/
def prA : PullRequest :=
  { number := 1, title := "t1", body := none, url := "u1", repoName := "app",
    repoFullName := "octo/app", baseBranch := "main", createdAt := 0,
    mergedAt := 50, commits := [] }

/-- A concrete merged PR with a different key and earlier merge time. -/
def prB : PullRequest :=
  { number := 2, title := "t2", body := none, url := "u2", repoName := "app",
    repoFullName := "octo/app", baseBranch := "main", createdAt := 0,
    mergedAt := 10, commits := [] }

/-- A concrete duplicate of `prA`'s key discovered by a later strategy. -/
def prAdup : PullRequest :=
  { number := 1, title := "t1 again", body := none, url := "u1", repoName := "app",
    repoFullName := "octo/app", baseBranch := "main", createdAt := 0,
    mergedAt := 99, commits := [] }

/-- C3 (witness): on a concrete concatenation with a duplicate key, the
result has distinct keys, is sorted, and keeps the first occurrence
`prA` rather than the later duplicate. -/
theorem fetchAllMergedPRs_dedup_sorted_witness :
    ((fetchAllMergedPRs [prA, prB, prAdup]).map prKey).Nodup ∧
    (fetchAllMergedPRs [prA, prB, prAdup]).Sorted byMergedAt ∧
    prA ∈ fetchAllMergedPRs [prA, prB, prAdup] ∧
    prAdup ∉ fetchAllMergedPRs [prA, prB, prAdup] :=
  ⟨(fetchAllMergedPRs_dedup_sorted [prA, prB, prAdup]).1,
   (fetchAllMergedPRs_dedup_sorted [prA, prB, prAdup]).2.2,
   ((fetchAllMergedPRs_dedup_sorted [prA, prB, prAdup]).2.1 prA).mpr (by decide),
   fun hmem => by
     have h := ((fetchAllMergedPRs_dedup_sorted [prA, prB, prAdup]).2.1 prAdup).mp hmem
     exact absurd h (by decide)⟩

/-! ### C4: composition order of the repo-inclusion filters -/

/-- C4 (amended): in `shouldIncludeRepo` the exclude-list is decisive
first, then the scope filter, then the repo allow-list (which
short-circuits the org allow-list and the default accept, but not the
scope filter), then the org allow-list, else inclusion.  The
scope-override for an explicit repo list lives one level up, in
`fetchPRsFromSpecificRepos`, whose per-repo gate consults only the
exclude-list. -/
theorem shouldIncludeRepo_filter_order (opts : GitHubClientOptions) (full user : String) :
    ((opts.excludeRepos.getD []).contains full = true →
      shouldIncludeRepo opts full user = false) ∧
    ((opts.excludeRepos.getD []).contains full = false →
      opts.scope = some RepoScope.personal → isOrgRepo full user = true →
      shouldIncludeRepo opts full user = false) ∧
    ((opts.excludeRepos.getD []).contains full = false →
      opts.scope = some RepoScope.orgs → isOrgRepo full user = false →
      shouldIncludeRepo opts full user = false) ∧
    ((opts.excludeRepos.getD []).contains full = false →
      ¬(opts.scope = some RepoScope.personal ∧ isOrgRepo full user = true) →
      ¬(opts.scope = some RepoScope.orgs ∧ isOrgRepo full user = false) →
      0 < (opts.repos.getD []).length →
      shouldIncludeRepo opts full user = (opts.repos.getD []).contains full) ∧
    ((opts.excludeRepos.getD []).contains full = false →
      ¬(opts.scope = some RepoScope.personal ∧ isOrgRepo full user = true) →
      ¬(opts.scope = some RepoScope.orgs ∧ isOrgRepo full user = false) →
      (opts.repos.getD []).length = 0 → 0 < (opts.orgs.getD []).length →
      shouldIncludeRepo opts full user =
        (if repoOwner full ≠ "" then (opts.orgs.getD []).contains (repoOwner full)
         else false)) ∧
    ((opts.excludeRepos.getD []).contains full = false →
      ¬(opts.scope = some RepoScope.personal ∧ isOrgRepo full user = true) →
      ¬(opts.scope = some RepoScope.orgs ∧ isOrgRepo full user = false) →
      (opts.repos.getD []).length = 0 → (opts.orgs.getD []).length = 0 →
      shouldIncludeRepo opts full user = true) ∧
    specificRepoIncluded opts full = !(opts.excludeRepos.getD []).contains full := by
  refine ⟨?_, ?_, ?_, ?_, ?_, ?_, rfl⟩
  · intro hx
    simp at hx
    simp [shouldIncludeRepo, hx]
  · intro hx hs ho
    simp at hx
    simp [shouldIncludeRepo, hx, hs, ho]
  · intro hx hs ho
    simp at hx
    simp [shouldIncludeRepo, hx, hs, ho]
  · intro hx hns hno hr
    simp at hx
    simp [shouldIncludeRepo, hx, hns, hno, hr]
  · intro hx hns hno hr ho
    simp at hx
    simp [shouldIncludeRepo, hx, hns, hno, hr, ho]
  · intro hx hns hno hr ho
    simp at hx
    simp [shouldIncludeRepo, hx, hns, hno, hr, ho]

/-- A concrete configuration for claim C4: personal scope together with an
explicit repo allow-list naming an organization repo. -/
def c4opts : GitHubClientOptions :=
  { scope := some RepoScope.personal, repos := some ["orga/proj"],
    orgs := none, excludeRepos := none }

/-- C4 (counterexample): the claim says a present repo allow-list
short-circuits (overrides) the scope filter inside `shouldIncludeRepo`;
but with personal scope the allow-listed org repo `orga/proj` is still
rejected by the scope check — the override only exists in
`fetchPRsFromSpecificRepos`, whose gate ignores scope. -/
theorem shouldIncludeRepo_allowlist_counterexample :
    (c4opts.repos.getD []).contains "orga/proj" = true ∧
    shouldIncludeRepo c4opts "orga/proj" "me" = false ∧
    specificRepoIncluded c4opts "orga/proj" = true := by
  decide

/-- C4 (witness): the amended composition at concrete inputs — the scope
veto fires despite the allow-list, and an unfiltered configuration
defaults to inclusion. -/
theorem shouldIncludeRepo_filter_order_witness :
    shouldIncludeRepo c4opts "orga/proj" "me" = false ∧
    shouldIncludeRepo
      { scope := none, repos := none, orgs := none, excludeRepos := none }
      "me/app" "me" = true :=
  ⟨(shouldIncludeRepo_filter_order c4opts "orga/proj" "me").2.1
      (by decide) rfl (by decide),
   (shouldIncludeRepo_filter_order
      { scope := none, repos := none, orgs := none, excludeRepos := none }
      "me/app" "me").2.2.2.2.2.1
      (by decide) (by decide) (by decide) rfl rfl⟩

/-! ### C5: rate-limit backoff and the retry ceiling -/

/-- C5: a 403 with zero remaining quota or any 429 makes `request` wait
`max(resetEpochSeconds*1000 - now + 1000, 1000)` capped at 300000 ms (or
60000 ms with no reset header) and retry the same request with the retry
counter incremented; once 3 retries have been consumed, the next
throttled response raises the terminal rate-limit error instead. -/
theorem request_rate_limit_retry (r : HttpResp) (now : ℤ)
    (rest : List (HttpResp × ℤ)) (k : ℕ) :
    (((r.status = 403 ∧ r.remaining = some "0") ∨ r.status = 429) → k < 3 →
      requestSim ((r, now) :: rest) k =
        ((match r.reset with
          | none => (60000 : ℤ)
          | some t => min (max (t * 1000 - now + 1000) 1000) 300000)
            :: (requestSim rest (k + 1)).1,
         (requestSim rest (k + 1)).2)) ∧
    (((r.status = 403 ∧ r.remaining = some "0") ∨ r.status = 429) → 3 ≤ k →
      requestSim ((r, now) :: rest) k = ([], ReqOutcome.rateLimitError r.status)) := by
  constructor
  · intro h hk
    have hcond : (r.status = 403 ∨ r.status = 429) ∧
        (r.remaining = some "0" ∨ r.status = 429) := by tauto
    have hk3 : ¬ 3 ≤ k := by omega
    cases hr : r.reset with
    | none => simp [requestSim, hcond, hk3, waitTimeMs, hr]
    | some t => simp [requestSim, hcond, hk3, waitTimeMs, hr]
  · intro h hk
    have hcond : (r.status = 403 ∨ r.status = 429) ∧
        (r.remaining = some "0" ∨ r.status = 429) := by tauto
    simp [requestSim, hcond, hk]

/-- A concrete throttled response: a 429 with no headers. -/
def thr429 : HttpResp := { status := 429, remaining := none, reset := none }

/-- C5 (witness): the default 60s wait on the first 429, and the terminal
error once the retry budget is spent. -/
theorem request_rate_limit_retry_witness :
    requestSim [(thr429, 0)] 0 = ([60000], ReqOutcome.outOfResponses) ∧
    requestSim [(thr429, 0)] 3 = ([], ReqOutcome.rateLimitError 429) := by
  constructor
  · have h := (request_rate_limit_retry thr429 0 [] 0).1 (Or.inr rfl) (by omega)
    simpa [thr429, requestSim] using h
  · have h := (request_rate_limit_retry thr429 0 [] 3).2 (Or.inr rfl) le_rfl
    simpa [thr429] using h

end Whatidid
